import Mathlib

/-!
# Verification of the Mafia game session core

This development shallowly embeds the game-logic layer of the Mafia web
application (the pure helpers of `server/services/gameLogic.ts`, the data
model of `shared/schema.ts`, and the request handlers of
`server/routes.ts`) and proves properties of the embedded code.

Modelling conventions:
* TypeScript strings stay `String`, booleans stay `Bool`; JavaScript
  numbers that are only ever non-negative integers become `Nat`, and the
  player vote counter becomes `Int` because the code clamps a decrement
  with `Math.max(0, _)`, which is only meaningful on a type with
  subtraction below zero.
* Nullable columns become `Option _`.
* `Math.random()` based shuffling is modelled by an oracle
  `f : Nat → Nat`; step `i` of the Fisher-Yates loop uses `f i % (i + 1)`,
  which ranges over exactly the values `Math.floor(Math.random() * (i + 1))`
  can take.
* The external narrative generator (Gemini) is modelled by an
  `Option String` oracle: `some s` is a successful generation returning
  `s`, `none` is the caught failure, in which case the code keeps the
  previous narrative (or a hardcoded default).
* The storage collaborator keyed by id is modelled by in-place list
  updates; `storage.updateGame` refreshes the `updatedAt` timestamp,
  modelled by a `now : Nat` parameter.
-/

namespace Mafia

/-- `ROLES` from `shared/schema.ts`. -/
inductive Role where
  | VILLAGER
  | DOCTOR
  | DETECTIVE
  | MAFIA
deriving DecidableEq

/-- `PHASES` from `shared/schema.ts`. -/
inductive Phase where
  | LOBBY
  | DAY
  | NIGHT
  | VOTING
  | ENDED
deriving DecidableEq

/-- `PLAYER_STATUS` from `shared/schema.ts`. -/
inductive PlayerStatus where
  | ALIVE
  | ELIMINATED
  | SPECTATOR
deriving DecidableEq

/-- A row of the `players` table (`shared/schema.ts`); `joinedAt` is
irrelevant to every claim and omitted. -/
structure Player where
  id : String
  gameId : String
  name : String
  role : Option Role
  status : PlayerStatus
  isReady : Bool
  isHost : Bool
  votes : Int
  votedFor : Option String
  lastAction : Option String
  actionTarget : Option String
deriving DecidableEq

/-- A row of the `games` table (`shared/schema.ts`); `roomCode` and
`createdAt` are irrelevant to every claim and omitted.  `updatedAt` is an
abstract timestamp refreshed by `storage.updateGame`. -/
structure Game where
  id : String
  name : String
  hostId : String
  maxPlayers : Nat
  currentPhase : Phase
  dayNumber : Nat
  timeRemaining : Int
  isActive : Bool
  geminiApiKey : Option String
  narrative : String
  gameLog : List String
  roleDistribution : Option (List (Role × Nat))
  updatedAt : Nat
deriving DecidableEq

/-- The outcome type of `checkWinCondition` (`'VILLAGERS' | 'MAFIA'`,
with `null` modelled by `Option`). -/
inductive Winner where
  | VILLAGERS
  | MAFIA
deriving DecidableEq

/-- `checkWinCondition` from `server/services/gameLogic.ts`. -/
def checkWinCondition (players : List Player) : Option Winner :=
  let alivePlayers := players.filter (fun p => p.status == PlayerStatus.ALIVE)
  let aliveMafia := alivePlayers.filter (fun p => p.role == some Role.MAFIA)
  let aliveVillagers := alivePlayers.filter (fun p => !(p.role == some Role.MAFIA))
  if aliveMafia.length = 0 then
    some Winner.VILLAGERS
  else if aliveVillagers.length ≤ aliveMafia.length then
    some Winner.MAFIA
  else
    none

/-- The number of ALIVE players with role MAFIA (the `aliveMafia.length`
of `checkWinCondition`). -/
def aliveMafiaCount (players : List Player) : Nat :=
  ((players.filter (fun p => p.status == PlayerStatus.ALIVE)).filter
    (fun p => p.role == some Role.MAFIA)).length

/-- The number of ALIVE players whose role is not MAFIA (the
`aliveVillagers.length` of `checkWinCondition`). -/
def aliveOthersCount (players : List Player) : Nat :=
  ((players.filter (fun p => p.status == PlayerStatus.ALIVE)).filter
    (fun p => !(p.role == some Role.MAFIA))).length

/-- `calculateRoleDistribution` from `server/services/gameLogic.ts`.
The returned record is modelled as an association list in the object's
property order (VILLAGER, DOCTOR, DETECTIVE, MAFIA); every stored count
is clamped positive by the code, so `Nat` counts (via `Int.toNat`) are
lossless. -/
def calculateRoleDistribution (playerCount : Nat) : List (Role × Nat) :=
  let mafiaCount : Int := (playerCount : Int) / 3
  let doctorCount : Int := 1
  let detectiveCount : Int := 1
  let villagerCount : Int := (playerCount : Int) - mafiaCount - doctorCount - detectiveCount
  [(Role.VILLAGER, (max 1 villagerCount).toNat),
   (Role.DOCTOR, doctorCount.toNat),
   (Role.DETECTIVE, detectiveCount.toNat),
   (Role.MAFIA, (max 1 mafiaCount).toNat)]

/-- Sum of the counts of a role-distribution map. -/
def sumCounts (dist : List (Role × Nat)) : Nat :=
  (dist.map (fun rc => rc.2)).sum

/-- C3: the Win Condition Evaluator returns OTHERS-WIN (villagers) iff no
Mafia is alive, ELIMINATORS-WIN (mafia) iff the alive Mafia count is
nonzero and at least the alive non-Mafia count (ties favor Mafia), and no
winner otherwise. -/
theorem checkWinCondition_spec (players : List Player) :
    (checkWinCondition players = some Winner.VILLAGERS ↔ aliveMafiaCount players = 0) ∧
    (checkWinCondition players = some Winner.MAFIA ↔
      aliveMafiaCount players ≠ 0 ∧ aliveOthersCount players ≤ aliveMafiaCount players) ∧
    (checkWinCondition players = none ↔
      aliveMafiaCount players ≠ 0 ∧ aliveMafiaCount players < aliveOthersCount players) := by
  unfold checkWinCondition aliveMafiaCount aliveOthersCount
  dsimp only
  split_ifs with h1 h2 <;> simp_all

/-- C8: for `N ≥ 4` the default distribution is
villagers `= max 1 (N - N/3 - 2) = N - N/3 - 2`, doctor `= 1`,
detective `= 1`, mafia `= max 1 (N/3) = N/3`, and the counts sum to `N`. -/
theorem calculateRoleDistribution_spec (N : Nat) (h : 4 ≤ N) :
    calculateRoleDistribution N =
      [(Role.VILLAGER, max 1 (N - N / 3 - 2)),
       (Role.DOCTOR, 1),
       (Role.DETECTIVE, 1),
       (Role.MAFIA, max 1 (N / 3))] ∧
    sumCounts (calculateRoleDistribution N) = N := by
  unfold calculateRoleDistribution sumCounts
  dsimp only
  refine ⟨?_, ?_⟩
  · simp only [List.cons.injEq, Prod.mk.injEq, and_true, true_and, and_self]
    omega
  · simp only [List.map_cons, List.map_nil, List.sum_cons, List.sum_nil]
    omega

/-- Witness for C8 at `N = 4`: the distribution is one of each role. -/
theorem calculateRoleDistribution_spec_witness :
    calculateRoleDistribution 4 =
      [(Role.VILLAGER, max 1 (4 - 4 / 3 - 2)),
       (Role.DOCTOR, 1),
       (Role.DETECTIVE, 1),
       (Role.MAFIA, max 1 (4 / 3))] ∧
    sumCounts (calculateRoleDistribution 4) = 4 :=
  calculateRoleDistribution_spec 4 (by decide)

/-- `processNightActions` from `server/services/gameLogic.ts`: the ordered
narrative event list (doctor events, then mafia events, then detective
events, as the three `forEach` passes run in sequence). -/
def processNightActions (players : List Player) : List String :=
  let actions := players.filter (fun p => p.lastAction.isSome && p.actionTarget.isSome)
  let doctors := actions.filter (fun p => p.role == some Role.DOCTOR && p.lastAction == some "HEAL")
  let saves := doctors.filterMap (fun d => d.actionTarget)
  let doctorEvents := doctors.filterMap (fun d =>
    if d.actionTarget.isSome then some "The doctor protected someone from harm." else none)
  let mafias := actions.filter (fun p => p.role == some Role.MAFIA && p.lastAction == some "KILL")
  let mafiaEvents := mafias.filterMap (fun m =>
    m.actionTarget.bind (fun t =>
      if saves.contains t then some "Someone was attacked but miraculously survived."
      else some "A villager was found eliminated at dawn."))
  let detectives := actions.filter
    (fun p => p.role == some Role.DETECTIVE && p.lastAction == some "INVESTIGATE")
  let detectiveEvents := detectives.filterMap (fun d =>
    if d.actionTarget.isSome then some "The detective gathered crucial information." else none)
  doctorEvents ++ mafiaEvents ++ detectiveEvents

/-- The `doctorSaves` protected-set of the NIGHT case of
`POST /api/games/:gameId/next-phase` (`server/routes.ts`): all HEAL
targets of players with role DOCTOR and pending action HEAL
(`.map(p => p.actionTarget).filter(Boolean)`). -/
def doctorSaves (players : List Player) : List String :=
  (players.filter (fun p => p.role == some Role.DOCTOR && p.lastAction == some "HEAL")).filterMap
    (fun p => p.actionTarget)

/-- The set of players eliminated by the mafia-kill loop of the NIGHT
case of `POST /api/games/:gameId/next-phase` (`server/routes.ts`): each
MAFIA/KILL action's target is eliminated unless it is in `doctorSaves`. -/
def nightEliminations (players : List Player) : List String :=
  (players.filter (fun p => p.role == some Role.MAFIA && p.lastAction == some "KILL")).filterMap
    (fun m => m.actionTarget.bind (fun t =>
      if (doctorSaves players).contains t then none else some t))

/-- C4: a participant is in the night elimination set iff some Mafia KILL
action targets them and they are not in the protected-set, and the
protected-set is exactly the set of Doctor HEAL targets; each kill is
checked against the same protected-set. -/
theorem nightEliminations_spec (players : List Player) (t : String) :
    (t ∈ nightEliminations players ↔
      (∃ p ∈ players, p.role = some Role.MAFIA ∧ p.lastAction = some "KILL" ∧
        p.actionTarget = some t) ∧
      t ∉ doctorSaves players) ∧
    (t ∈ doctorSaves players ↔
      ∃ p ∈ players, p.role = some Role.DOCTOR ∧ p.lastAction = some "HEAL" ∧
        p.actionTarget = some t) := by
  constructor
  · unfold nightEliminations
    simp only [List.mem_filterMap, List.mem_filter, Option.bind_eq_some, Bool.and_eq_true,
      beq_iff_eq]
    constructor
    · rintro ⟨p, ⟨hp, hrole, hact⟩, a, ha, hif⟩
      by_cases hca : (doctorSaves players).contains a
      · rw [if_pos hca] at hif
        exact Option.noConfusion hif
      · rw [if_neg hca] at hif
        obtain rfl := Option.some.inj hif
        exact ⟨⟨p, hp, hrole, hact, ha⟩, by simpa using hca⟩
    · rintro ⟨⟨p, hp, hrole, hact, ha⟩, hns⟩
      refine ⟨p, ⟨hp, hrole, hact⟩, t, ha, ?_⟩
      rw [if_neg (by simpa using hns)]
  · unfold doctorSaves
    simp only [List.mem_filterMap, List.mem_filter, Bool.and_eq_true, beq_iff_eq]
    constructor
    · rintro ⟨p, ⟨hp, hrole, hact⟩, ha⟩
      exact ⟨p, hp, hrole, hact, ha⟩
    · rintro ⟨p, hp, hrole, hact, ha⟩
      exact ⟨p, ⟨hp, hrole, hact⟩, ha⟩

/-- A player row with the schema's defaults, used to build concrete
scenarios. -/
def basePlayer (i : String) : Player :=
  { id := i, gameId := "g", name := i, role := none, status := PlayerStatus.ALIVE,
    isReady := true, isHost := false, votes := 0, votedFor := none,
    lastAction := none, actionTarget := none }

/-- An ELIMINATED doctor holding a pending HEAL on "P". -/
def deadDoctor : Player :=
  { basePlayer "D" with
    role := some Role.DOCTOR
    status := PlayerStatus.ELIMINATED
    lastAction := some "HEAL"
    actionTarget := some "P" }

/-- An ALIVE mafia holding a pending KILL on "P". -/
def nightKiller : Player :=
  { basePlayer "M" with
    role := some Role.MAFIA
    lastAction := some "KILL"
    actionTarget := some "P" }

/-- The ALIVE villager "P". -/
def villagerP : Player :=
  { basePlayer "P" with role := some Role.VILLAGER }

/-- C5 counterexample: a pending HEAL held by an ELIMINATED doctor does
contribute to the protected-set and the event list, and changes the
elimination set — with the dead doctor present, the mafia's target "P"
survives; without the doctor, "P" is eliminated. -/
theorem nightResolution_dead_doctor_counterexample :
    deadDoctor.status ≠ PlayerStatus.ALIVE ∧
    doctorSaves [deadDoctor, nightKiller, villagerP] = ["P"] ∧
    nightEliminations [deadDoctor, nightKiller, villagerP] = [] ∧
    nightEliminations [nightKiller, villagerP] = ["P"] ∧
    processNightActions [deadDoctor, nightKiller, villagerP] =
      ["The doctor protected someone from harm.",
       "Someone was attacked but miraculously survived."] :=
  ⟨by decide, rfl, rfl, rfl, rfl⟩

/-- C5 (amended): night-action resolution reads only each participant's
role, pending action and action target — it is invariant under arbitrary
changes of the participants' life status, so non-ALIVE participants'
pending actions contribute exactly as ALIVE ones' do. -/
theorem nightResolution_ignores_status (players : List Player)
    (f : Player → PlayerStatus) :
    processNightActions (players.map (fun p => { p with status := f p })) =
      processNightActions players ∧
    doctorSaves (players.map (fun p => { p with status := f p })) =
      doctorSaves players ∧
    nightEliminations (players.map (fun p => { p with status := f p })) =
      nightEliminations players := by
  refine ⟨?_, ?_, ?_⟩ <;>
    simp only [processNightActions, doctorSaves, nightEliminations, List.filter_map,
      List.filterMap_map] <;>
    rfl

/-- `getValidTargets` from `server/services/gameLogic.ts`.  The `phase`
string parameter is modelled with the `Phase` type its callers pass. -/
def getValidTargets (player : Player) (allPlayers : List Player) (phase : Phase) :
    List Player :=
  let alivePlayers := allPlayers.filter
    (fun p => p.status == PlayerStatus.ALIVE && p.id != player.id)
  match player.role with
  | some Role.DOCTOR => if phase == Phase.NIGHT then alivePlayers else []
  | some Role.DETECTIVE => if phase == Phase.NIGHT then alivePlayers else []
  | some Role.MAFIA =>
      if phase == Phase.NIGHT then
        alivePlayers.filter (fun p => !(p.role == some Role.MAFIA))
      else []
  | _ => if phase == Phase.VOTING then alivePlayers else []

/-- Membership in the alive-and-not-self filter of `getValidTargets`. -/
lemma mem_aliveFilter {q player : Player} {allPlayers : List Player}
    (h : q ∈ allPlayers.filter
      (fun p => p.status == PlayerStatus.ALIVE && p.id != player.id)) :
    q.status = PlayerStatus.ALIVE ∧ q.id ≠ player.id := by
  simp only [List.mem_filter, Bool.and_eq_true, beq_iff_eq, bne_iff_ne] at h
  exact ⟨h.2.1, h.2.2⟩

/-- C9: a valid target is never the acting player, is always ALIVE, and
for a MAFIA actor at NIGHT is never MAFIA. -/
theorem getValidTargets_spec (player q : Player) (allPlayers : List Player)
    (phase : Phase) (hq : q ∈ getValidTargets player allPlayers phase) :
    q.id ≠ player.id ∧ q.status = PlayerStatus.ALIVE ∧
    (player.role = some Role.MAFIA → phase = Phase.NIGHT →
      q.role ≠ some Role.MAFIA) := by
  unfold getValidTargets at hq
  dsimp only at hq
  rcases hr : player.role with _ | r
  · rw [hr] at hq
    by_cases hph : (phase == Phase.VOTING) = true
    · rw [if_pos hph] at hq
      have h := mem_aliveFilter hq
      exact ⟨h.2, h.1, by simp [hr]⟩
    · rw [if_neg hph] at hq
      simp at hq
  · rw [hr] at hq
    cases r
    · by_cases hph : (phase == Phase.VOTING) = true
      · rw [if_pos hph] at hq
        have h := mem_aliveFilter hq
        exact ⟨h.2, h.1, by simp [hr]⟩
      · rw [if_neg hph] at hq
        simp at hq
    · by_cases hph : (phase == Phase.NIGHT) = true
      · rw [if_pos hph] at hq
        have h := mem_aliveFilter hq
        exact ⟨h.2, h.1, by simp [hr]⟩
      · rw [if_neg hph] at hq
        simp at hq
    · by_cases hph : (phase == Phase.NIGHT) = true
      · rw [if_pos hph] at hq
        have h := mem_aliveFilter hq
        exact ⟨h.2, h.1, by simp [hr]⟩
      · rw [if_neg hph] at hq
        simp at hq
    · by_cases hph : (phase == Phase.NIGHT) = true
      · have hq' : q ∈ (allPlayers.filter
            (fun p => p.status == PlayerStatus.ALIVE && p.id != player.id)).filter
            (fun p => !(p.role == some Role.MAFIA)) := by
          have hm : q ∈ (if (phase == Phase.NIGHT) = true then
              (allPlayers.filter
                (fun p => p.status == PlayerStatus.ALIVE && p.id != player.id)).filter
                (fun p => !(p.role == some Role.MAFIA)) else []) := hq
          rwa [if_pos hph] at hm
        rw [List.mem_filter] at hq'
        have h := mem_aliveFilter hq'.1
        refine ⟨h.2, h.1, fun _ _ => ?_⟩
        simpa using hq'.2
      · have hm : q ∈ (if (phase == Phase.NIGHT) = true then
            (allPlayers.filter
              (fun p => p.status == PlayerStatus.ALIVE && p.id != player.id)).filter
              (fun p => !(p.role == some Role.MAFIA)) else []) := hq
        rw [if_neg hph] at hm
        simp at hm

/-- An ALIVE villager who votes. -/
def voterV : Player := { basePlayer "V" with role := some Role.VILLAGER }

/-- An ALIVE villager who can be targeted. -/
def targetW : Player := { basePlayer "W" with role := some Role.VILLAGER }

/-- Witness for C9 at a concrete voting scenario. -/
theorem getValidTargets_spec_witness :
    targetW.id ≠ voterV.id ∧ targetW.status = PlayerStatus.ALIVE ∧
    (voterV.role = some Role.MAFIA → Phase.VOTING = Phase.NIGHT →
      targetW.role ≠ some Role.MAFIA) :=
  getValidTargets_spec voterV targetW [voterV, targetW] Phase.VOTING (by decide)

/-! ## Vote tabulation (`VOTING` case of `POST /api/games/:gameId/next-phase`) -/

/-- One step of building the `voteCounts` JavaScript `Map`:
`voteCounts.set(k, (voteCounts.get(k) || 0) + 1)`.  A `Map` keeps a key's
first-insertion position when it is updated, so the association list
preserves first-insertion order. -/
def mapIncr (m : List (String × Nat)) (k : String) : List (String × Nat) :=
  if m.any (fun e => e.1 == k) then
    m.map (fun e => if e.1 == k then (e.1, e.2 + 1) else e)
  else
    m ++ [(k, 1)]

/-- The vote tally of the VOTING case: iterate over the ALIVE players in
order and count each `votedFor` target. -/
def tallyVotes (alivePlayers : List Player) : List (String × Nat) :=
  alivePlayers.foldl
    (fun m p => match p.votedFor with
      | some t => mapIncr m t
      | none => m) []

/-- The `maxVotes` scan of the VOTING case: starting from
`(eliminatedPlayer = null, maxVotes = 0)`, each entry with strictly more
votes than the running maximum replaces the candidate, so the final
candidate is the FIRST target to attain the overall maximum. -/
def findEliminated (voteCounts : List (String × Nat)) : Option String × Nat :=
  voteCounts.foldl (fun acc e => if acc.2 < e.2 then (some e.1, e.2) else acc) (none, 0)

/-! ## Role assignment (`assignRoles` of `server/services/gameLogic.ts`) -/

/-- The JavaScript destructuring swap
`[arr[i], arr[j]] = [arr[j], arr[i]]` on a list; out-of-range indices
leave the list unchanged (they never occur in the shuffle loop). -/
def listSwap {α : Type _} (l : List α) (i j : Nat) : List α :=
  match l[i]?, l[j]? with
  | some a, some b => (l.set i b).set j a
  | _, _ => l

/-- The Fisher-Yates loop of `assignRoles`:
`for (i = length - 1; i > 0; i--) swap(i, floor(random() * (i + 1)))`.
The random draw at step `i` is modelled as `f i % (i + 1)`, which ranges
over exactly the values `Math.floor(Math.random() * (i + 1))` takes. -/
def shuffleAux {α : Type _} (f : Nat → Nat) : Nat → List α → List α
  | 0, l => l
  | i + 1, l => shuffleAux f i (listSwap l (i + 1) (f (i + 1) % (i + 2)))

/-- The shuffled copy `availablePlayers` of `assignRoles`. -/
def shuffle {α : Type _} (f : Nat → Nat) (l : List α) : List α :=
  shuffleAux f (l.length - 1) l

/-- `RoleAssignment` from `server/services/gameLogic.ts`. -/
structure RoleAssignment where
  playerId : String
  role : Role
deriving DecidableEq

/-- The inner loop of `assignRoles`: perform `count` iterations, each
pushing the next shuffled player for `role` while `playerIndex` is in
range; returns the pushed assignments and the final `playerIndex`. -/
def assignRoleCount (shuffled : List Player) (role : Role) :
    Nat → Nat → List RoleAssignment × Nat
  | 0, playerIndex => ([], playerIndex)
  | c + 1, playerIndex =>
    if h : playerIndex < shuffled.length then
      let rest := assignRoleCount shuffled role c (playerIndex + 1)
      (⟨(shuffled[playerIndex]).id, role⟩ :: rest.1, rest.2)
    else
      assignRoleCount shuffled role c playerIndex

/-- The outer loop of `assignRoles` over `Object.entries(roleDistribution)`,
threading `playerIndex` through the role slots. -/
def assignRolesAux (shuffled : List Player) :
    List (Role × Nat) → Nat → List RoleAssignment
  | [], _ => []
  | rc :: rest, playerIndex =>
    let seg := assignRoleCount shuffled rc.1 rc.2 playerIndex
    seg.1 ++ assignRolesAux shuffled rest seg.2

/-- `assignRoles` from `server/services/gameLogic.ts`, with the
`Math.random` shuffle draws supplied by the oracle `f`. -/
def assignRoles (f : Nat → Nat) (players : List Player)
    (dist : List (Role × Nat)) : List RoleAssignment :=
  assignRolesAux (shuffle f players) dist 0

/-! ## The request handlers of `server/routes.ts` -/

/-- `storage.getPlayer` restricted to one game's rows. -/
def getPlayer (ps : List Player) (pid : String) : Option Player :=
  ps.find? (fun p => p.id == pid)

/-- `storage.updatePlayer`: a partial-field merge on the row with the
given primary key. -/
def updatePlayerIn (ps : List Player) (pid : String) (upd : Player → Player) :
    List Player :=
  ps.map (fun p => if p.id == pid then upd p else p)

/-- One game session's state: the `games` row plus its `players` rows. -/
structure SessionState where
  game : Game
  players : List Player
deriving DecidableEq

/-- The literal the code logs for a winner. -/
def winnerStr : Winner → String
  | Winner.VILLAGERS => "VILLAGERS"
  | Winner.MAFIA => "MAFIA"

/-- The common tail of the next-phase handler: optional narrative
regeneration (skipped when the new phase is ENDED) followed by
`storage.updateGame`, which also refreshes `updatedAt` to `now`. -/
def applyGameUpdate (now : Nat) (gen : Option String) (game : Game)
    (players : List Player) (newPhase : Phase) (newDayNumber : Nat)
    (newLog : List String) (narrative : String) :
    SessionState × Except String Game :=
  let narrative2 :=
    if game.geminiApiKey.isSome && !(newPhase == Phase.ENDED) then
      match gen with
      | some s => s
      | none => narrative
    else narrative
  let newGame : Game :=
    { game with
      currentPhase := newPhase
      dayNumber := newDayNumber
      gameLog := newLog
      narrative := narrative2
      timeRemaining := if newPhase == Phase.ENDED then 0 else 300
      updatedAt := now }
  (⟨newGame, players⟩, Except.ok newGame)

/-- `POST /api/games/:gameId/next-phase` (`server/routes.ts`), for an
existing game.  `gen` is the `generateNarrative` oracle and `genSummary`
the `generateGameSummary` oracle (`none` models a caught failure, which
keeps the previous narrative). -/
def nextPhase (now : Nat) (gen genSummary : Option String) (st : SessionState) :
    SessionState × Except String Game :=
  let game := st.game
  let players := st.players
  match game.currentPhase with
  | Phase.DAY =>
      applyGameUpdate now gen game players Phase.VOTING game.dayNumber
        (game.gameLog ++ ["Day " ++ toString game.dayNumber ++ " voting phase begins"])
        game.narrative
  | Phase.VOTING =>
      let alivePlayers := players.filter (fun p => p.status == PlayerStatus.ALIVE)
      let voteCounts := tallyVotes alivePlayers
      let eliminatedPlayer : Option Player :=
        match (findEliminated voteCounts).1 with
        | some pid => players.find? (fun p => p.id == pid)
        | none => none
      let step1 : List Player × List String :=
        match eliminatedPlayer with
        | some ep =>
            (updatePlayerIn players ep.id (fun p => { p with status := PlayerStatus.ELIMINATED }),
             game.gameLog ++ [ep.name ++ " was eliminated by vote"])
        | none => (players, game.gameLog ++ ["No one was eliminated (tie vote)"])
      let players2 := alivePlayers.foldl
        (fun ps ap => updatePlayerIn ps ap.id
          (fun p => { p with votes := 0, votedFor := none })) step1.1
      match checkWinCondition players2 with
      | some w =>
          let narrative2 :=
            if game.geminiApiKey.isSome then
              match genSummary with
              | some s => s
              | none => game.narrative
            else game.narrative
          applyGameUpdate now gen game players2 Phase.ENDED game.dayNumber
            (step1.2 ++ ["Game ended - " ++ winnerStr w ++ " wins!"]) narrative2
      | none =>
          applyGameUpdate now gen game players2 Phase.NIGHT game.dayNumber
            step1.2 game.narrative
  | Phase.NIGHT =>
      let newLog1 := game.gameLog ++ processNightActions players
      let mafiaActions := players.filter
        (fun p => p.role == some Role.MAFIA && p.lastAction == some "KILL")
      let saves := doctorSaves players
      let step1 : List Player × List String := mafiaActions.foldl
        (fun acc mafia =>
          match mafia.actionTarget with
          | some tgt =>
              if saves.contains tgt then acc
              else
                let ps := updatePlayerIn acc.1 tgt
                  (fun p => { p with status := PlayerStatus.ELIMINATED })
                match players.find? (fun p => p.id == tgt) with
                | some target => (ps, acc.2 ++ [target.name ++ " was eliminated during the night"])
                | none => (ps, acc.2)
          | none => acc) (players, newLog1)
      let players2 := players.foldl
        (fun ps pl => updatePlayerIn ps pl.id
          (fun p => { p with lastAction := none, actionTarget := none })) step1.1
      match checkWinCondition players2 with
      | some w =>
          applyGameUpdate now gen game players2 Phase.ENDED game.dayNumber
            (step1.2 ++ ["Game ended - " ++ winnerStr w ++ " wins!"]) game.narrative
      | none =>
          applyGameUpdate now gen game players2 Phase.DAY (game.dayNumber + 1)
            step1.2 game.narrative
  | _ =>
      applyGameUpdate now gen game players game.currentPhase game.dayNumber
        game.gameLog game.narrative

/-- The hardcoded fallback narrative of the start handler. -/
def defaultNarrative : String :=
  "The game begins in the mysterious village of Shadowbrook. As night falls, an ominous feeling settles over the residents..."

/-- `POST /api/games/:gameId/start` (`server/routes.ts`), for an existing
game.  `f` is the shuffle oracle, `gen` the `generateNarrative` oracle. -/
def startGame (f : Nat → Nat) (now : Nat) (gen : Option String)
    (st : SessionState) : SessionState × Except String Game :=
  let game := st.game
  let players := st.players
  if players.length < 4 then
    (st, Except.error "Need at least 4 players to start")
  else if !(players.all (fun p => p.isReady)) then
    (st, Except.error "All players must be ready")
  else
    let dist :=
      match game.roleDistribution with
      | some d => d
      | none => calculateRoleDistribution players.length
    let rolesAssigned := assignRoles f players dist
    let players1 := rolesAssigned.foldl
      (fun ps a => updatePlayerIn ps a.playerId (fun p => { p with role := some a.role }))
      players
    let narrative :=
      match game.geminiApiKey, gen with
      | some _, some s => s
      | _, _ => defaultNarrative
    let n := players.length
    let newGame : Game :=
      { game with
        currentPhase := Phase.DAY
        narrative := narrative
        timeRemaining := 300
        gameLog := ["Game started with " ++ toString n ++ " players", narrative]
        updatedAt := now }
    (⟨newGame, players1⟩, Except.ok newGame)

/-- The "Remove previous vote" step of `POST /api/games/:gameId/vote`:
if the voter had a previous target, that target's counter becomes
`Math.max(0, previousTarget.votes - 1)`. -/
def voteRemovePrevious (players : List Player) (player : Player) : List Player :=
  match player.votedFor with
  | some prev =>
      match getPlayer players prev with
      | some previousTarget =>
          updatePlayerIn players prev
            (fun p => { p with votes := max 0 (previousTarget.votes - 1) })
      | none => players
  | none => players

/-- The "Increment target's vote count" step of
`POST /api/games/:gameId/vote`: the target row is re-fetched after the
earlier updates and its counter becomes `target.votes + 1`. -/
def voteIncrementTarget (players2 : List Player) (targetId : Option String) :
    List Player :=
  match targetId with
  | some tid =>
      match getPlayer players2 tid with
      | some target =>
          updatePlayerIn players2 tid
            (fun p => { p with votes := target.votes + 1 })
      | none => players2
  | none => players2

/-- `POST /api/games/:gameId/vote` (`server/routes.ts`), for an existing
game: re-voting first decrements the previous target's counter (floored
at 0), then records the new target and increments its counter. -/
def castVote (st : SessionState) (playerId : String) (targetId : Option String) :
    SessionState × Except String Unit :=
  let game := st.game
  let players := st.players
  if !(game.currentPhase == Phase.VOTING) then
    (st, Except.error "Voting not allowed at this time")
  else
    match getPlayer players playerId with
    | none => (st, Except.error "Player cannot vote")
    | some player =>
      if !(player.status == PlayerStatus.ALIVE) then
        (st, Except.error "Player cannot vote")
      else
        let players1 := voteRemovePrevious players player
        let players2 := updatePlayerIn players1 playerId
          (fun p => { p with votedFor := targetId })
        let players3 := voteIncrementTarget players2 targetId
        (⟨game, players3⟩, Except.ok ())

/-- A sequence of cast-vote requests applied in order. -/
def castVotes (st : SessionState) (reqs : List (String × Option String)) :
    SessionState :=
  reqs.foldl (fun s r => (castVote s r.1 r.2).1) st

/-! ## Concrete sessions used to settle the claims -/

/-- A voter with the given id who targets `target`. -/
def mkVoter (i target : String) : Player :=
  { basePlayer i with
    role := some Role.VILLAGER
    votedFor := some target }

/-- Vote candidate "A", an ALIVE villager. -/
def candA : Player := { basePlayer "A" with role := some Role.VILLAGER }

/-- Vote candidate "B", an ALIVE mafia (so the game does not end on A's
elimination). -/
def candB : Player := { basePlayer "B" with role := some Role.MAFIA }

/-- Eight ALIVE players; three vote for "A" and three for "B": a 3-3 tie. -/
def tieVoters : List Player :=
  [candA, candB, mkVoter "1" "A", mkVoter "2" "A", mkVoter "3" "A",
   mkVoter "4" "B", mkVoter "5" "B", mkVoter "6" "B"]

/-- A session row sitting in the VOTING phase. -/
def votingGame : Game :=
  { id := "g"
    name := "game"
    hostId := "A"
    maxPlayers := 8
    currentPhase := Phase.VOTING
    dayNumber := 1
    timeRemaining := 300
    isActive := true
    geminiApiKey := none
    narrative := ""
    gameLog := []
    roleDistribution := none
    updatedAt := 0 }

/-- C1: on the 3-3 tie the maximum count (3) is attained by the two
distinct targets "A" and "B", yet the scan elects "A" — the first target
to reach the maximum — and the advance-phase handler then marks "A"
ELIMINATED and logs an elimination, not the tie message. -/
theorem votingTie_eliminates_first :
    tallyVotes (tieVoters.filter (fun p => p.status == PlayerStatus.ALIVE))
      = [("A", 3), ("B", 3)] ∧
    (findEliminated (tallyVotes
      (tieVoters.filter (fun p => p.status == PlayerStatus.ALIVE)))).1 = some "A" ∧
    (getPlayer (nextPhase 1 none none ⟨votingGame, tieVoters⟩).1.players "A").map
      Player.status = some PlayerStatus.ELIMINATED ∧
    (nextPhase 1 none none ⟨votingGame, tieVoters⟩).1.game.gameLog
      = ["A was eliminated by vote"] :=
  ⟨rfl, rfl, rfl, rfl⟩

/-- A session row sitting in the terminal ENDED phase. -/
def endedGame : Game :=
  { votingGame with
    currentPhase := Phase.ENDED
    dayNumber := 3
    timeRemaining := 0
    narrative := "over"
    gameLog := ["end"] }

/-- C2 counterexample: advancing an ENDED session is NOT rejected — the
handler answers with the (re-saved) game, and the save refreshes the
last-modified timestamp. -/
theorem endedNextPhase_not_rejected :
    (nextPhase 1 none none ⟨endedGame, []⟩).2 =
      Except.ok { endedGame with updatedAt := 1 } ∧
    (nextPhase 1 none none ⟨endedGame, []⟩).1.game.updatedAt ≠ endedGame.updatedAt :=
  ⟨rfl, by decide⟩

/-- C2 (amended): advancing an ENDED session is accepted (no validation
error); the phase stays ENDED and the day counter, log, narrative and
players are unchanged, but the countdown is set to 0 and the
last-modified timestamp is refreshed by the save. -/
theorem nextPhase_ended (now : Nat) (gen genSummary : Option String)
    (st : SessionState) (h : st.game.currentPhase = Phase.ENDED) :
    nextPhase now gen genSummary st =
      (⟨{ st.game with timeRemaining := 0, updatedAt := now }, st.players⟩,
       Except.ok { st.game with timeRemaining := 0, updatedAt := now }) := by
  obtain ⟨game, players⟩ := st
  obtain ⟨gid, gname, ghost, gmax, gphase, gday, gtime, gactive, gkey, gnarr,
    glog, gdist, gupd⟩ := game
  simp only at h
  subst h
  simp [nextPhase, applyGameUpdate]

/-- Witness for C2 (amended) on a concrete ENDED session. -/
theorem nextPhase_ended_witness :
    nextPhase 7 none none ⟨endedGame, [candA]⟩ =
      (⟨{ endedGame with timeRemaining := 0, updatedAt := 7 }, [candA]⟩,
       Except.ok { endedGame with timeRemaining := 0, updatedAt := 7 }) :=
  nextPhase_ended 7 none none ⟨endedGame, [candA]⟩ rfl

/-- A session row sitting mid-game in the NIGHT phase on day 5. -/
def midGame : Game :=
  { votingGame with
    currentPhase := Phase.NIGHT
    dayNumber := 5 }

/-- C6 counterexample: the start handler never checks the phase — called
on a NIGHT-phase day-5 session with 8 ready players it succeeds, and the
resulting day counter is still 5, not 1. -/
theorem start_succeeds_from_non_lobby :
    midGame.currentPhase ≠ Phase.LOBBY ∧
    ((startGame (fun _ => 0) 1 none ⟨midGame, tieVoters⟩).2.toOption.map
      Game.currentPhase = some Phase.DAY) ∧
    ((startGame (fun _ => 0) 1 none ⟨midGame, tieVoters⟩).2.toOption.map
      Game.dayNumber = some 5) :=
  ⟨by decide, rfl, rfl⟩

/-- C6 (amended): the start operation succeeds — from any phase — exactly
when the participant count is at least 4 and every participant is ready;
on success the stored game's phase becomes DAY and its day counter is
left unchanged (hence 1 on a fresh LOBBY session); on a precondition
violation it reports a validation error and mutates nothing. -/
theorem startGame_spec (f : Nat → Nat) (now : Nat) (gen : Option String)
    (st : SessionState) :
    ((∃ g, (startGame f now gen st).2 = Except.ok g) ↔
      4 ≤ st.players.length ∧ ∀ p ∈ st.players, p.isReady = true) ∧
    (∀ g, (startGame f now gen st).2 = Except.ok g →
      g.currentPhase = Phase.DAY ∧ g.dayNumber = st.game.dayNumber ∧
      (startGame f now gen st).1.game = g) ∧
    (∀ e, (startGame f now gen st).2 = Except.error e →
      (startGame f now gen st).1 = st) := by
  unfold startGame
  dsimp only
  split_ifs with h1 h2
  · refine ⟨?_, ?_, ?_⟩
    · constructor
      · rintro ⟨g, hg⟩
        exact absurd hg (by simp)
      · rintro ⟨hlen, -⟩
        omega
    · intro g hg
      exact absurd hg (by simp)
    · intro e _
      rfl
  · refine ⟨?_, ?_, ?_⟩
    · constructor
      · rintro ⟨g, hg⟩
        exact absurd hg (by simp)
      · rintro ⟨-, hready⟩
        have hall := List.all_eq_true.mpr hready
        simp [hall] at h2
    · intro g hg
      exact absurd hg (by simp)
    · intro e _
      rfl
  · have hall : st.players.all (fun p => p.isReady) = true := by
      revert h2
      cases st.players.all (fun p => p.isReady) <;> simp
    refine ⟨?_, ?_, ?_⟩
    · constructor
      · intro _
        exact ⟨by omega, by simpa [List.all_eq_true] using hall⟩
      · intro _
        exact ⟨_, rfl⟩
    · intro g hg
      obtain rfl := Except.ok.inj hg
      exact ⟨rfl, rfl, rfl⟩
    · intro e hg
      exact absurd hg (by simp)

/-- A fresh LOBBY session on day 1. -/
def lobbyGame : Game :=
  { votingGame with currentPhase := Phase.LOBBY }

/-- The game record stored by a successful start call on the fresh LOBBY
session. -/
def startedGame : Game :=
  (startGame (fun _ => 0) 2 none ⟨lobbyGame, tieVoters⟩).1.game

/-- Witness for C6 (amended): starting the fresh LOBBY session with 8
ready players succeeds, moves the phase to DAY and keeps day counter 1. -/
theorem startGame_spec_witness :
    startedGame.currentPhase = Phase.DAY ∧ startedGame.dayNumber = lobbyGame.dayNumber ∧
    (startGame (fun _ => 0) 2 none ⟨lobbyGame, tieVoters⟩).1.game = startedGame := by
  have h := (startGame_spec (fun _ => 0) 2 none ⟨lobbyGame, tieVoters⟩).2.1
    startedGame rfl
  exact ⟨h.1, h.2.1, h.2.2⟩

/-! ## C10: vote counters never go negative -/

/-- Updating one row keeps all vote counters non-negative provided the
update itself does. -/
lemma updatePlayerIn_votes_nonneg {ps : List Player} {pid : String}
    {upd : Player → Player} (h0 : ∀ p ∈ ps, 0 ≤ p.votes)
    (hupd : ∀ p ∈ ps, 0 ≤ (upd p).votes) :
    ∀ q ∈ updatePlayerIn ps pid upd, 0 ≤ q.votes := by
  intro q hq
  unfold updatePlayerIn at hq
  rw [List.mem_map] at hq
  obtain ⟨p, hp, hpq⟩ := hq
  by_cases hc : (p.id == pid) = true
  · rw [if_pos hc] at hpq
    subst hpq
    exact hupd p hp
  · rw [if_neg hc] at hpq
    subst hpq
    exact h0 p hp

/-- The re-vote decrement is floored at 0, so it keeps all counters
non-negative. -/
lemma voteRemovePrevious_nonneg (players : List Player) (player : Player)
    (h0 : ∀ p ∈ players, 0 ≤ p.votes) :
    ∀ q ∈ voteRemovePrevious players player, 0 ≤ q.votes := by
  intro q hq
  unfold voteRemovePrevious at hq
  split at hq
  · split at hq
    · refine updatePlayerIn_votes_nonneg h0 ?_ q hq
      intro p hp
      dsimp only
      exact le_max_left 0 _
    · exact h0 q hq
  · exact h0 q hq

/-- The new-target increment adds one to a counter that was already
non-negative. -/
lemma voteIncrementTarget_nonneg (players2 : List Player) (targetId : Option String)
    (h : ∀ q ∈ players2, 0 ≤ q.votes) :
    ∀ q ∈ voteIncrementTarget players2 targetId, 0 ≤ q.votes := by
  intro q hq
  rcases targetId with _ | tid
  · exact h q hq
  · unfold voteIncrementTarget at hq
    dsimp only at hq
    rcases hg : getPlayer players2 tid with _ | target
    · rw [hg] at hq
      exact h q hq
    · rw [hg] at hq
      refine updatePlayerIn_votes_nonneg h ?_ q hq
      intro p hp
      dsimp only
      have htm : target ∈ players2 := by
        unfold getPlayer at hg
        exact List.mem_of_find?_eq_some hg
      have := h target htm
      omega

/-- One cast-vote call keeps all vote counters non-negative. -/
lemma castVote_nonneg_step (st : SessionState) (pid : String)
    (tid : Option String) (h0 : ∀ p ∈ st.players, 0 ≤ p.votes) :
    ∀ q ∈ (castVote st pid tid).1.players, 0 ≤ q.votes := by
  unfold castVote
  dsimp only
  split
  · exact h0
  · split
    · exact h0
    · split
      · exact h0
      · refine voteIncrementTarget_nonneg _ _ ?_
        refine updatePlayerIn_votes_nonneg (voteRemovePrevious_nonneg _ _ h0) ?_
        intro p hp
        dsimp only
        exact voteRemovePrevious_nonneg _ _ h0 p hp

/-- C10: starting from any state whose vote counters are all
non-negative (as they are at creation, where they default to 0), any
sequence of cast-vote requests leaves every participant's vote counter
non-negative — the re-vote decrement is floored at 0. -/
theorem castVotes_nonneg (st : SessionState)
    (reqs : List (String × Option String))
    (h0 : ∀ p ∈ st.players, 0 ≤ p.votes) :
    ∀ p ∈ (castVotes st reqs).players, 0 ≤ p.votes := by
  induction reqs generalizing st with
  | nil => exact h0
  | cons r rs ih => exact ih _ (castVote_nonneg_step st r.1 r.2 h0)

/-- The row of "W" after "V"'s vote for "W" has been applied. -/
def targetWVoted : Player := { targetW with votes := 1 }

/-- Witness for C10: after the concrete vote of "V" for "W" in a VOTING
session, "W"'s counter is non-negative. -/
theorem castVotes_nonneg_witness : 0 ≤ targetWVoted.votes :=
  castVotes_nonneg ⟨votingGame, [voterV, targetW]⟩ [("V", some "W")]
    (by decide) targetWVoted (by decide)

/-! ## C7: properties of the role assignment -/

/-- If position `m` of `l` holds `b`, consing `b` onto `l.set m a` is a
permutation of consing `a` onto `l`. -/
lemma cons_set_perm {α : Type _} :
    ∀ (l : List α) (m : Nat) (a b : α), l[m]? = some b →
      List.Perm (b :: l.set m a) (a :: l)
  | [], _, _, _, h => by simp at h
  | c :: t, 0, a, b, h => by
      obtain rfl : c = b := by simpa using h
      exact List.Perm.swap a c t
  | c :: t, m + 1, a, b, h => by
      have ih := cons_set_perm t m a b (by simpa using h)
      exact (List.Perm.swap c b _).trans ((ih.cons c).trans (List.Perm.swap a c t))

/-- After writing `b` at position `i`, position `j` still holds `b` when
it held `b` before (also when `i = j`). -/
lemma set_getElem?_swap {α : Type _} {l : List α} {i j : Nat} {a b : α}
    (hi : l[i]? = some a) (hj : l[j]? = some b) :
    (l.set i b)[j]? = some b := by
  by_cases hij : i = j
  · subst hij
    have hlen : i < l.length := (List.getElem?_eq_some_iff.mp hi).1
    simp [hlen]
  · rw [List.getElem?_set_ne hij]
    exact hj

/-- The JavaScript destructuring swap permutes the list. -/
lemma listSwap_perm {α : Type _} (l : List α) (i j : Nat) :
    List.Perm (listSwap l i j) l := by
  unfold listSwap
  split
  · next a b hi hj =>
      have h2 := cons_set_perm (l.set i b) j a b (set_getElem?_swap hi hj)
      have h3 := cons_set_perm l i b a hi
      exact List.Perm.cons_inv (h2.trans h3)
  · exact List.Perm.refl l

/-- The Fisher-Yates loop permutes the list, whatever the draws are. -/
lemma shuffleAux_perm {α : Type _} (f : Nat → Nat) :
    ∀ (i : Nat) (l : List α), List.Perm (shuffleAux f i l) l
  | 0, l => List.Perm.refl l
  | i + 1, l =>
      (shuffleAux_perm f i (listSwap l (i + 1) (f (i + 1) % (i + 2)))).trans
        (listSwap_perm l (i + 1) (f (i + 1) % (i + 2)))

/-- The shuffled player list is a permutation of the input. -/
lemma shuffle_perm {α : Type _} (f : Nat → Nat) (l : List α) :
    List.Perm (shuffle f l) l :=
  shuffleAux_perm f (l.length - 1) l

/-- While enough players remain, the inner loop of `assignRoles` consumes
exactly `c` consecutive shuffled players. -/
lemma assignRoleCount_eq (S : List Player) (r : Role) :
    ∀ (c idx : Nat), idx + c ≤ S.length →
      assignRoleCount S r c idx =
        (((S.drop idx).take c).map (fun p => ⟨p.id, r⟩), idx + c)
  | 0, idx, _ => by simp [assignRoleCount]
  | c + 1, idx, h => by
      have hidx : idx < S.length := by omega
      have ih := assignRoleCount_eq S r c (idx + 1) (by omega)
      unfold assignRoleCount
      rw [dif_pos hidx]
      dsimp only
      rw [ih]
      dsimp only
      rw [List.drop_eq_getElem_cons hidx, List.take_succ_cons, List.map_cons]
      simp only [Prod.mk.injEq, List.cons.injEq, true_and, and_true]
      omega

/-- While the distribution fits, the assigned player identifiers are the
first `sumCounts dist` shuffled players from position `idx` on. -/
lemma assignRolesAux_map_id (S : List Player) :
    ∀ (dist : List (Role × Nat)) (idx : Nat), idx + sumCounts dist ≤ S.length →
      (assignRolesAux S dist idx).map RoleAssignment.playerId =
        ((S.drop idx).take (sumCounts dist)).map Player.id
  | [], idx, _ => by simp [assignRolesAux, sumCounts]
  | rc :: rest, idx, h => by
      have hsum : sumCounts (rc :: rest) = rc.2 + sumCounts rest := by
        simp [sumCounts]
      have hb1 : idx + rc.2 ≤ S.length := by rw [hsum] at h; omega
      have ih := assignRolesAux_map_id S rest (idx + rc.2) (by rw [hsum] at h; omega)
      unfold assignRolesAux
      dsimp only
      rw [assignRoleCount_eq S rc.1 rc.2 idx hb1]
      dsimp only
      rw [List.map_append, ih, List.map_map, hsum, List.take_add, List.map_append,
        List.drop_drop]
      rfl

/-- While the distribution fits, exactly `sumCounts dist` assignments are
produced. -/
lemma assignRolesAux_length (S : List Player) (dist : List (Role × Nat))
    (idx : Nat) (h : idx + sumCounts dist ≤ S.length) :
    (assignRolesAux S dist idx).length = sumCounts dist := by
  have hmap := congrArg List.length (assignRolesAux_map_id S dist idx h)
  simp only [List.length_map, List.length_take, List.length_drop] at hmap
  omega

/-- While the distribution fits, the number of assignments bearing role
`r` is the summed count of the distribution entries keyed `r`. -/
lemma assignRolesAux_filter (S : List Player) (r : Role) :
    ∀ (dist : List (Role × Nat)) (idx : Nat), idx + sumCounts dist ≤ S.length →
      ((assignRolesAux S dist idx).filter (fun a => a.role == r)).length =
        sumCounts (dist.filter (fun rc => rc.1 == r))
  | [], idx, _ => by simp [assignRolesAux, sumCounts]
  | rc :: rest, idx, h => by
      have hsum : sumCounts (rc :: rest) = rc.2 + sumCounts rest := by
        simp [sumCounts]
      have hb1 : idx + rc.2 ≤ S.length := by rw [hsum] at h; omega
      have ih := assignRolesAux_filter S r rest (idx + rc.2) (by rw [hsum] at h; omega)
      unfold assignRolesAux
      dsimp only
      rw [assignRoleCount_eq S rc.1 rc.2 idx hb1]
      dsimp only
      rw [List.filter_append, List.length_append, ih, List.filter_map]
      have hlen : ((S.drop idx).take rc.2).length = rc.2 := by
        simp only [List.length_take, List.length_drop]
        omega
      by_cases hr : (rc.1 == r) = true
      · have hfun : ((fun a => a.role == r) ∘
            (fun p : Player => (⟨p.id, rc.1⟩ : RoleAssignment))) = fun _ => true := by
          funext p
          simpa using hr
        rw [hfun, List.filter_true, List.length_map, hlen]
        simp [sumCounts, List.filter_cons, hr]
      · have hfun : ((fun a => a.role == r) ∘
            (fun p : Player => (⟨p.id, rc.1⟩ : RoleAssignment))) = fun _ => false := by
          funext p
          simpa using hr
        rw [hfun, List.filter_false]
        simp [sumCounts, List.filter_cons, hr]

/-- With pairwise-distinct keys (as `Object.entries` of a record yields),
the entries keyed like a member `rc` reduce to `[rc]`. -/
lemma filter_key_of_nodup :
    ∀ (dist : List (Role × Nat)), (dist.map Prod.fst).Nodup →
      ∀ rc ∈ dist, dist.filter (fun e => e.1 == rc.1) = [rc]
  | [], _, rc, hrc => by simp at hrc
  | d :: ds, hnd, rc, hrc => by
      rw [List.map_cons, List.nodup_cons] at hnd
      rcases List.mem_cons.mp hrc with rfl | hmem
      · have hnil : ds.filter (fun e => e.1 == rc.1) = [] := by
          rw [List.filter_eq_nil_iff]
          intro e he hkey
          have he1 : e.1 = rc.1 := by simpa using hkey
          exact hnd.1 (he1 ▸ List.mem_map_of_mem Prod.fst he)
        rw [List.filter_cons, if_pos (by simp), hnil]
      · have hd : ¬((fun e : Role × Nat => e.1 == rc.1) d) = true := by
          intro hkey
          have hd1 : d.1 = rc.1 := by simpa using hkey
          exact hnd.1 (by rw [hd1]; exact List.mem_map_of_mem Prod.fst hmem)
        rw [List.filter_cons, if_neg hd]
        exact filter_key_of_nodup ds hnd.2 rc hmem

/-- C7: for a distribution whose counts sum to `N ≤ |players|`, with
pairwise-distinct player ids and distribution keys, `assignRoles` yields
exactly `N` assignments, pairwise-distinct assigned ids all drawn from
the input list, and per-role counts matching the distribution — for any
outcome `f` of the random shuffle. -/
theorem assignRoles_spec (f : Nat → Nat) (players : List Player)
    (dist : List (Role × Nat)) (N : Nat) (hsum : sumCounts dist = N)
    (hN : N ≤ players.length) (hids : (players.map Player.id).Nodup)
    (hkeys : (dist.map Prod.fst).Nodup) :
    (assignRoles f players dist).length = N ∧
    ((assignRoles f players dist).map RoleAssignment.playerId).Nodup ∧
    ((assignRoles f players dist).map RoleAssignment.playerId ⊆
      players.map Player.id) ∧
    (∀ rc ∈ dist, ((assignRoles f players dist).filter
      (fun a => a.role == rc.1)).length = rc.2) := by
  have hperm : List.Perm (shuffle f players) players := shuffle_perm f players
  have hlen : (shuffle f players).length = players.length := hperm.length_eq
  have hbound : 0 + sumCounts dist ≤ (shuffle f players).length := by omega
  have hmap := assignRolesAux_map_id (shuffle f players) dist 0 hbound
  rw [List.drop_zero] at hmap
  have hsub : List.Sublist ((shuffle f players).take (sumCounts dist))
      (shuffle f players) :=
    List.take_sublist _ _
  refine ⟨?_, ?_, ?_, ?_⟩
  · unfold assignRoles
    exact (assignRolesAux_length _ _ _ hbound).trans hsum
  · unfold assignRoles
    rw [hmap]
    have hidsS : ((shuffle f players).map Player.id).Nodup :=
      ((hperm.map Player.id).nodup_iff).mpr hids
    exact (hsub.map Player.id).nodup hidsS
  · unfold assignRoles
    rw [hmap]
    intro x hx
    exact (hperm.map Player.id).subset ((hsub.map Player.id).subset hx)
  · intro rc hrc
    unfold assignRoles
    rw [assignRolesAux_filter (shuffle f players) rc.1 dist 0 hbound,
      filter_key_of_nodup dist hkeys rc hrc]
    simp [sumCounts]

/-- The default distribution the start handler computes for 8 players. -/
def dist8 : List (Role × Nat) := calculateRoleDistribution 8

/-- Witness for C7 on the eight concrete players and the default
8-player distribution (with its MAFIA entry of count 2). -/
theorem assignRoles_spec_witness :
    (assignRoles (fun _ => 0) tieVoters dist8).length = 8 ∧
    ((assignRoles (fun _ => 0) tieVoters dist8).map RoleAssignment.playerId).Nodup ∧
    ((assignRoles (fun _ => 0) tieVoters dist8).map RoleAssignment.playerId ⊆
      tieVoters.map Player.id) ∧
    ((assignRoles (fun _ => 0) tieVoters dist8).filter
      (fun a => a.role == (Role.MAFIA, 2).1)).length = (Role.MAFIA, 2).2 := by
  have h := assignRoles_spec (fun _ => 0) tieVoters dist8 8 (by decide) (by decide)
    (by decide) (by decide)
  exact ⟨h.1, h.2.1, h.2.2.1, h.2.2.2 (Role.MAFIA, 2) (by decide)⟩

end Mafia
